import Mathlib

/-!
# MultiArchAware scheduler filter

A shallow embedding of `pkg/multiarchaware/multiarchaware.go`: the `Filter`
extension point of the multi-arch aware scheduler plugin, which admits or
rejects a (pod, node) pair by comparing the node's `kubernetes.io/arch`
label with the architectures of the pod's images.

The registry client (`containers/image`) is an external collaborator: what
it answers for one image name is a value of `Resolution`, and a registry is
a function from image names to such answers. A nil-pointer dereference of
the Go code is the result `none`.

`Filter` never reads its context: it hands `ctx` to the client at lines 74,
81, 121 and 127. `FilterWithContext` is the same run with the context, a
client whose answers depend on it, and the calls made to the client.
-/

namespace MultiArchAware

/-! ## Data model -/

/-- Status codes of `framework.Code`. -/
inductive Code where
  | Success
  | Error
  | Unschedulable
  | UnschedulableAndUnresolvable
  | Wait
  | Skip
  deriving DecidableEq, Repr

/-- The value `*framework.Status`: a code and the reasons given to `NewStatus`. -/
structure Status where
  code : Code
  reasons : List String
  deriving DecidableEq, Repr

/-- The constructor `framework.NewStatus(code, reasons...)`. -/
def NewStatus (code : Code) (reasons : List String) : Status :=
  { code := code, reasons := reasons }

/-- The method `Status.Message()`: the reasons joined by a comma and a blank. -/
def Status.Message (s : Status) : String :=
  ", ".intercalate s.reasons

/-- The type `v1.Container`, with the fields the filter reads. -/
structure Container where
  Name : String
  Image : String
  deriving DecidableEq, Repr

/-- The type `v1.PodSpec`, with the two container lists. -/
structure PodSpec where
  InitContainers : List Container
  Containers : List Container
  deriving DecidableEq, Repr

/-- The type `v1.Pod`. -/
structure Pod where
  Spec : PodSpec
  deriving DecidableEq, Repr

/-- The type `metav1.ObjectMeta`: the name and the label map, the map as
an association list. -/
structure ObjectMeta where
  Name : String
  Labels : List (String × String)
  deriving DecidableEq, Repr

/-- The type `v1.Node`. -/
structure Node where
  ObjectMeta : ObjectMeta
  deriving DecidableEq, Repr

/-- The type `framework.NodeInfo`: its node pointer is nil until `SetNode`. -/
structure NodeInfo where
  node : Option Node
  deriving DecidableEq, Repr

/-- The method `NodeInfo.Node()`: the node pointer, possibly nil. -/
def NodeInfo.Node (n : NodeInfo) : Option Node :=
  n.node

/-- The method `NodeInfo.SetNode` on a fresh `NodeInfo`. -/
def NodeInfo.SetNode (node : MultiArchAware.Node) : NodeInfo :=
  { node := some node }

/-- Reading a Go `map[string]string` at a key: the zero value `""` when the
key is absent. -/
def mapIndex (m : List (String × String)) (key : String) : String :=
  (m.lookup key).getD ""

/-- The type `imgspecv1.Platform`, with the field the filter reads. -/
structure Platform where
  Architecture : String
  deriving DecidableEq, Repr

/-- The type `imgspecv1.Descriptor` of an index entry: `Platform` is a
pointer, nil when the entry has no platform record. -/
structure Descriptor where
  Platform : Option Platform
  deriving DecidableEq, Repr

/-- What the registry client answers for one image name, stage by stage of
the loop body: each failure is the error of one library call, `index` is a
manifest list parsed by `OCI1IndexFromManifest`, `config` is the
architecture of the OCI config of a manifest that is not a list. -/
inductive Resolution where
  | parseReferenceError
  | newImageSourceError
  | getManifestError
  | indexParseError
  | index (manifests : List Descriptor)
  | fromUnparsedImageError
  | ociConfigError
  | config (architecture : String)
  deriving DecidableEq, Repr

/-- A registry: the answer of the client for every image name. -/
abbrev Registry := String → Resolution

/-- The order in which `range` visits the keys of a map. Go leaves it
unspecified: every key is visited exactly once, in some order. -/
structure RangeOrder where
  visit : List String → List String
  legal : ∀ keys, (visit keys).Perm keys

/-- The iteration that visits the keys in insertion order. -/
def RangeOrder.insertion : RangeOrder :=
  { visit := fun keys => keys, legal := fun keys => List.Perm.refl keys }

/-- The iteration that visits the keys in reverse insertion order. -/
def RangeOrder.reversed : RangeOrder :=
  { visit := fun keys => keys.reverse, legal := fun keys => List.reverse_perm keys }

/-! ## The filter -/

/-- The assignment `m[key] = voidVal` on a set kept as its list of keys. -/
def setInsert (m : List String) (key : String) : List String :=
  if key ∈ m then m else m ++ [key]

/-- Lines 45-48: the set of image names of the pod, each stored as
`"//" ++ image`, from the containers followed by the init containers. -/
def imageNamesSet (pod : Pod) : List String :=
  (pod.Spec.Containers ++ pod.Spec.InitContainers).foldl
    (fun m container => setInsert m ("//" ++ container.Image)) []

/-- Lines 98-106: the scan of `index.Manifests`. The flag `notFound` is
cleared by every entry of the node's architecture, the scan never stops
early, and an entry whose `Platform` is nil is a nil dereference. -/
def scanManifests (nodeArchitecture : String) :
    List Descriptor → Bool → Option Bool
  | [], notFound => some notFound
  | m :: rest, notFound =>
    match m.Platform with
    | none => none
    | some platform =>
      if platform.Architecture = nodeArchitecture then
        scanManifests nodeArchitecture rest false
      else
        scanManifests nodeArchitecture rest notFound

/-- How one pass through the loop body ends. -/
inductive Step where
  | next
  | ret (status : Status)
  | nilDereference
  deriving DecidableEq, Repr

/-- The reason of both rejections (lines 112 and 137). -/
def unsupportedReason : String :=
  "The imageName does not support the architecture of this node"

/-- The reason of the admission of line 54. -/
def archNotFoundReason : String :=
  "Node architecture not found. Ignoring multi-arch aware filtering plugin"

/-- Lines 66-139: the loop body for one image name. -/
def checkImage (registry : Registry) (nodeArchitecture imageName : String) : Step :=
  match registry imageName with
  | .parseReferenceError => .next
  | .newImageSourceError => .next
  | .getManifestError => .next
  | .indexParseError => .next
  | .index manifests =>
    match scanManifests nodeArchitecture manifests true with
    | none => .nilDereference
    | some notFound =>
      if notFound then .ret (NewStatus .Unschedulable [unsupportedReason]) else .next
  | .fromUnparsedImageError => .next
  | .ociConfigError => .next
  | .config architecture =>
    if architecture ≠ nodeArchitecture then
      .ret (NewStatus .Unschedulable [unsupportedReason])
    else .next

/-- One run of the filter: the image names logged by line 66 ("Checking
image"), in order, and the returned status, `none` for a nil dereference. -/
structure Run where
  checked : List String
  status : Option Status
  deriving DecidableEq, Repr

/-- Lines 65-142: the loop over the image names in the order of the
iteration, and the admission after the loop. -/
def checkImages (registry : Registry) (nodeArchitecture : String) : List String → Run
  | [] => { checked := [], status := some (NewStatus .Success []) }
  | imageName :: rest =>
    match checkImage registry nodeArchitecture imageName with
    | .next =>
      let run := checkImages registry nodeArchitecture rest
      { checked := imageName :: run.checked, status := run.status }
    | .ret status => { checked := [imageName], status := some status }
    | .nilDereference => { checked := [imageName], status := none }

/-- The method `MultiArchAware.Filter` (lines 42-143) for one pod and one
candidate node, against a registry and under one iteration order. -/
def Filter (registry : Registry) (range : RangeOrder) (pod : Pod) (nodeInfo : NodeInfo) : Run :=
  let imageNames := imageNamesSet pod
  match nodeInfo.Node with
  | none => { checked := [], status := none }
  | some node =>
    let nodeArchitecture := mapIndex node.ObjectMeta.Labels "kubernetes.io/arch"
    if nodeArchitecture = "" then
      { checked := [], status := some (NewStatus .Success [archNotFoundReason]) }
    else
      checkImages registry nodeArchitecture (range.visit imageNames)

/-! ## The context -/

/-- The argument `ctx context.Context` of `Filter`, as far as a run can
observe it: whether it is already cancelled (`ctx.Err() != nil`). -/
structure Context where
  cancelled : Bool
  deriving DecidableEq, Repr

/-- The registry client together with the context it is given: lines 74,
81, 121 and 127 pass `ctx` to the client, and the answer of the client for
an image name may depend on it. -/
abbrev Client := Context → Registry

/-- A call of the loop body to the registry client: `ParseReference` of
line 68 takes no context, the calls of lines 74, 81, 121 and 127 take
`ctx`. -/
inductive Call where
  | ParseReference (imageName : String)
  | NewImageSource (ctx : Context) (imageName : String)
  | GetManifest (ctx : Context) (imageName : String)
  | FromUnparsedImage (ctx : Context) (imageName : String)
  | OCIConfig (ctx : Context) (imageName : String)
  deriving DecidableEq, Repr

/-- The calls of the fetch of a manifest (lines 74-86): the two calls that
are handed `ctx` before the manifest is there. -/
def Call.startsFetch : Call → Bool
  | .NewImageSource _ _ => true
  | .GetManifest _ _ => true
  | _ => false

/-- The calls that one pass through the loop body makes, in order: every
call up to the one whose error ends the pass, or all of the branch taken.
`OCI1IndexFromManifest` parses bytes and is no call to the client. -/
def callsFor (ctx : Context) (imageName : String) : Resolution → List Call
  | .parseReferenceError => [.ParseReference imageName]
  | .newImageSourceError => [.ParseReference imageName, .NewImageSource ctx imageName]
  | .getManifestError =>
    [.ParseReference imageName, .NewImageSource ctx imageName, .GetManifest ctx imageName]
  | .indexParseError =>
    [.ParseReference imageName, .NewImageSource ctx imageName, .GetManifest ctx imageName]
  | .index _ =>
    [.ParseReference imageName, .NewImageSource ctx imageName, .GetManifest ctx imageName]
  | .fromUnparsedImageError =>
    [.ParseReference imageName, .NewImageSource ctx imageName, .GetManifest ctx imageName,
      .FromUnparsedImage ctx imageName]
  | .ociConfigError =>
    [.ParseReference imageName, .NewImageSource ctx imageName, .GetManifest ctx imageName,
      .FromUnparsedImage ctx imageName, .OCIConfig ctx imageName]
  | .config _ =>
    [.ParseReference imageName, .NewImageSource ctx imageName, .GetManifest ctx imageName,
      .FromUnparsedImage ctx imageName, .OCIConfig ctx imageName]

/-- The calls of the passes through the loop body for a list of image
names, one pass after the other. -/
def callsForAll (ctx : Context) (client : Client) : List String → List Call
  | [] => []
  | imageName :: rest =>
    callsFor ctx imageName (client ctx imageName) ++ callsForAll ctx client rest

/-- One run of the filter with its context: the calls made to the client,
the image names logged by line 66 and the returned status. -/
structure ContextRun where
  calls : List Call
  checked : List String
  status : Option Status
  deriving DecidableEq, Repr

/-- Lines 65-142 with the context: the loop hands `ctx` to the client in
every pass and tests it nowhere. -/
def checkImagesWithContext (ctx : Context) (client : Client) (nodeArchitecture : String) :
    List String → ContextRun
  | [] => { calls := [], checked := [], status := some (NewStatus .Success []) }
  | imageName :: rest =>
    let calls := callsFor ctx imageName (client ctx imageName)
    match checkImage (client ctx) nodeArchitecture imageName with
    | .next =>
      let run := checkImagesWithContext ctx client nodeArchitecture rest
      { calls := calls ++ run.calls, checked := imageName :: run.checked, status := run.status }
    | .ret status => { calls := calls, checked := [imageName], status := some status }
    | .nilDereference => { calls := calls, checked := [imageName], status := none }

/-- The method `MultiArchAware.Filter` (lines 42-143) with its argument
`ctx`: no line reads `ctx.Err()` or `ctx.Done()`, the context only reaches
the client. -/
def FilterWithContext (ctx : Context) (client : Client) (range : RangeOrder) (pod : Pod)
    (nodeInfo : NodeInfo) : ContextRun :=
  let imageNames := imageNamesSet pod
  match nodeInfo.Node with
  | none => { calls := [], checked := [], status := none }
  | some node =>
    let nodeArchitecture := mapIndex node.ObjectMeta.Labels "kubernetes.io/arch"
    if nodeArchitecture = "" then
      { calls := [], checked := [], status := some (NewStatus .Success [archNotFoundReason]) }
    else
      checkImagesWithContext ctx client nodeArchitecture (range.visit imageNames)

/-- A client that fails every call made with a cancelled context: under a
cancelled context its answer for an image name never gets past the fetch of
the manifest. The parse of the reference takes no context and may fail or
succeed as before. -/
def honoursCancellation (client : Client) : Prop :=
  ∀ (ctx : Context) (imageName : String), ctx.cancelled = true →
    client ctx imageName = .parseReferenceError ∨
      client ctx imageName = .newImageSourceError ∨
      client ctx imageName = .getManifestError

/-- A context that is not cancelled. -/
def liveContext : Context :=
  { cancelled := false }

/-- A context that is already cancelled. -/
def cancelledContext : Context :=
  { cancelled := true }

/-- The client of a registry that gives up at its first call with a
cancelled context: `NewImageSource` fails for every reference that parses;
under a live context it answers as the registry. -/
def cancellableClient (registry : Registry) : Client :=
  fun ctx imageName =>
    if ctx.cancelled then
      match registry imageName with
      | .parseReferenceError => .parseReferenceError
      | _ => .newImageSourceError
    else registry imageName

/-! ## The inputs of the tests -/

/-- The node of `getNode`: named `node`, labelled `arm64`. -/
def getNode : Node :=
  { ObjectMeta := { Name := "node", Labels := [("kubernetes.io/arch", "arm64")] } }

/-- The pod of `getMultiarchPod`. -/
def getMultiarchPod : Pod :=
  { Spec :=
    { InitContainers := [{ Name := "init", Image := "quay.io/openshifttest/hello-openshift:1.2.0" }]
      Containers := [{ Name := "container", Image := "quay.io/openshifttest/hello-openshift:1.2.0" }] } }

/-- The pod of `getOnlyAMD64Pod`. -/
def getOnlyAMD64Pod : Pod :=
  { Spec :=
    { InitContainers := [{ Name := "init", Image := "quay.io/openshift/origin-cli:latest" }]
      Containers := [{ Name := "container", Image := "quay.io/openshifttest/hello-openshift:1.2.0" }] } }


/-! ## The verdicts of the specification -/

/-- The verdict `Incompatible` of the specification for one image name: the
registry answers with an index that has no entry of architecture `A`, or
with a single-platform config whose architecture is not `A`. A failure of
any stage is the verdict `Unknown`, which is not `Incompatible`. -/
def confirmedIncompatible (registry : Registry) (A imageName : String) : Bool :=
  match registry imageName with
  | .index manifests =>
    manifests.all (fun m => decide (m.Platform.map Platform.Architecture ≠ some A))
  | .config architecture => decide (architecture ≠ A)
  | _ => false

/-- Every entry of every index that the registry serves for one of the
image names has a platform record. -/
def platformsPresent (registry : Registry) (imageNames : List String) : Prop :=
  ∀ imageName ∈ imageNames, ∀ manifests, registry imageName = .index manifests →
    ∀ m ∈ manifests, m.Platform ≠ none

/-! ## Concrete inputs -/

/-- The candidate of the tests: a `NodeInfo` whose node is `getNode`. -/
def arm64NodeInfo : NodeInfo :=
  NodeInfo.SetNode getNode

/-- A node without labels. -/
def unlabelledNode : Node :=
  { ObjectMeta := { Name := "node", Labels := [] } }

/-- A `NodeInfo` on which `SetNode` was never called. -/
def emptyNodeInfo : NodeInfo :=
  { node := none }

/-- A pod with one main container and no init container. -/
def mainOnlyPod : Pod :=
  { Spec :=
    { InitContainers := []
      Containers := [{ Name := "container", Image := "registry/app:main" }] } }

/-- The pod of the scenario of the specification: one init container and
one main container, with different images. -/
def initAndMainPod : Pod :=
  { Spec :=
    { InitContainers := [{ Name := "init", Image := "registry/app:init" }]
      Containers := [{ Name := "container", Image := "registry/app:main" }] } }

/-- An index entry for one architecture. -/
def entryFor (architecture : String) : Descriptor :=
  { Platform := some { Architecture := architecture } }

/-- An index entry without a platform record. -/
def entryWithoutPlatform : Descriptor :=
  { Platform := none }

/-- A registry that cannot be reached: every manifest fetch fails. -/
def unreachableRegistry : Registry :=
  fun _ => .getManifestError

/-- A registry that serves the same index for every image name. -/
def indexRegistry (manifests : List Descriptor) : Registry :=
  fun _ => .index manifests

/-- The registry of the scenario of the specification: `app:main` is an
index for `amd64` and `arm64`, `app:init` is a single-platform `amd64`
image, nothing else can be fetched. -/
def scenarioRegistry : Registry :=
  fun imageName =>
    if imageName = "//registry/app:main" then .index [entryFor "amd64", entryFor "arm64"]
    else if imageName = "//registry/app:init" then .config "amd64"
    else .getManifestError

/-- A registry where `app:main` is an index with one entry that has no
platform record and `app:init` is a single-platform `amd64` image. -/
def platformlessMainRegistry : Registry :=
  fun imageName =>
    if imageName = "//registry/app:main" then .index [entryWithoutPlatform]
    else if imageName = "//registry/app:init" then .config "amd64"
    else .getManifestError

/-- The registry of the tests, as far as they rely on it: the multi-arch
image `hello-openshift:1.2.0` has an `arm64` entry, `origin-cli:latest` is a
single-platform `amd64` image. -/
def testRegistry : Registry :=
  fun imageName =>
    if imageName = "//quay.io/openshifttest/hello-openshift:1.2.0" then
      .index [entryFor "amd64", entryFor "arm64"]
    else if imageName = "//quay.io/openshift/origin-cli:latest" then .config "amd64"
    else .getManifestError

/-- The registry of the tests with one more entry, without a platform
record, in the index of the multi-arch image. -/
def platformlessTestRegistry : Registry :=
  fun imageName =>
    if imageName = "//quay.io/openshifttest/hello-openshift:1.2.0" then
      .index [entryFor "amd64", entryFor "arm64", entryWithoutPlatform]
    else if imageName = "//quay.io/openshift/origin-cli:latest" then .config "amd64"
    else .getManifestError

/-! ## The image set -/

theorem append_left_cancel (p a b : String) (h : p ++ a = p ++ b) : a = b := by
  have h2 : (p ++ a).data = (p ++ b).data := by rw [h]
  simp only [String.data_append] at h2
  exact String.ext (List.append_cancel_left h2)

theorem setInsert_nodup (m : List String) (key : String) (h : m.Nodup) :
    (setInsert m key).Nodup := by
  unfold setInsert
  split
  · exact h
  · rename_i hk
    exact List.Nodup.append h (List.nodup_singleton key) (by simpa using hk)

theorem mem_setInsert (m : List String) (key x : String) :
    x ∈ setInsert m key ↔ x ∈ m ∨ x = key := by
  unfold setInsert
  split
  · rename_i hk
    constructor
    · intro h; exact Or.inl h
    · rintro (h | h)
      · exact h
      · exact h ▸ hk
  · simp

theorem foldl_setInsert_nodup (cs : List Container) :
    ∀ m : List String, m.Nodup →
      (cs.foldl (fun m container => setInsert m ("//" ++ container.Image)) m).Nodup := by
  induction cs with
  | nil => intro m h; exact h
  | cons c cs ih =>
    intro m h
    exact ih _ (setInsert_nodup m _ h)

theorem mem_foldl_setInsert (cs : List Container) :
    ∀ (m : List String) (x : String),
      x ∈ cs.foldl (fun m container => setInsert m ("//" ++ container.Image)) m ↔
        x ∈ m ∨ ∃ c ∈ cs, x = "//" ++ c.Image := by
  induction cs with
  | nil => intro m x; simp
  | cons c cs ih =>
    intro m x
    rw [List.foldl_cons, ih, mem_setInsert]
    simp only [List.mem_cons, exists_eq_or_imp]
    tauto

theorem imageNamesSet_nodup (pod : Pod) : (imageNamesSet pod).Nodup :=
  foldl_setInsert_nodup _ [] List.nodup_nil

theorem mem_imageNamesSet (pod : Pod) (x : String) :
    x ∈ imageNamesSet pod ↔
      ∃ c ∈ pod.Spec.Containers ++ pod.Spec.InitContainers, x = "//" ++ c.Image := by
  unfold imageNamesSet
  rw [mem_foldl_setInsert]
  simp

theorem imageNamesSet_perm_dedup (pod : Pod) :
    (imageNamesSet pod).Perm
      ((((pod.Spec.Containers ++ pod.Spec.InitContainers).map Container.Image).dedup).map
        (fun image => "//" ++ image)) := by
  rw [List.perm_ext_iff_of_nodup (imageNamesSet_nodup pod)
    (List.Nodup.map (fun a b h => append_left_cancel "//" a b h) (List.nodup_dedup _))]
  intro x
  rw [mem_imageNamesSet]
  simp only [List.mem_map, List.mem_dedup]
  constructor
  · rintro ⟨c, hc, rfl⟩
    exact ⟨c.Image, ⟨c, hc, rfl⟩, rfl⟩
  · rintro ⟨image, ⟨c, hc, rfl⟩, rfl⟩
    exact ⟨c, hc, rfl⟩

/-! ## The loop -/

theorem scanManifests_of_platforms (A : String) (manifests : List Descriptor) :
    ∀ notFound : Bool, (∀ m ∈ manifests, m.Platform ≠ none) →
      scanManifests A manifests notFound =
        some (notFound &&
          manifests.all (fun m => decide (m.Platform.map Platform.Architecture ≠ some A))) := by
  induction manifests with
  | nil => intro notFound _; simp [scanManifests]
  | cons m rest ih =>
    intro notFound h
    have hrest : ∀ m ∈ rest, m.Platform ≠ none := fun x hx => h x (List.mem_cons_of_mem m hx)
    have hm : m.Platform ≠ none := h m (List.mem_cons_self m rest)
    obtain ⟨platform, hp⟩ := Option.ne_none_iff_exists'.mp hm
    unfold scanManifests
    rw [hp]
    by_cases ha : platform.Architecture = A
    · simp [ha, ih false hrest, hp]
    · simp [ha, ih notFound hrest, hp]

theorem scanManifests_eq_none (A : String) (manifests : List Descriptor) :
    ∀ notFound : Bool,
      scanManifests A manifests notFound = none ↔ ∃ m ∈ manifests, m.Platform = none := by
  induction manifests with
  | nil => intro notFound; simp [scanManifests]
  | cons m rest ih =>
    intro notFound
    unfold scanManifests
    cases hp : m.Platform with
    | none => simp [hp]
    | some platform =>
      by_cases ha : platform.Architecture = A
      · simp [ha, ih false, hp]
      · simp [ha, ih notFound, hp]

theorem checkImage_of_platforms (registry : Registry) (A imageName : String)
    (h : ∀ manifests, registry imageName = .index manifests →
      ∀ m ∈ manifests, m.Platform ≠ none) :
    checkImage registry A imageName =
      if confirmedIncompatible registry A imageName then
        .ret (NewStatus .Unschedulable [unsupportedReason])
      else .next := by
  unfold checkImage confirmedIncompatible
  cases hr : registry imageName with
  | index manifests =>
    simp only [scanManifests_of_platforms A manifests true (h manifests hr), Bool.true_and]
  | config architecture =>
    by_cases ha : architecture = A <;> simp [ha]
  | _ => simp

theorem checkImages_status_of_platforms (registry : Registry) (A : String)
    (imageNames : List String) (h : platformsPresent registry imageNames) :
    (checkImages registry A imageNames).status =
      some (if imageNames.any (confirmedIncompatible registry A) then
        NewStatus .Unschedulable [unsupportedReason]
      else NewStatus .Success []) := by
  induction imageNames with
  | nil => simp [checkImages]
  | cons imageName rest ih =>
    have hrest : platformsPresent registry rest :=
      fun x hx => h x (List.mem_cons_of_mem imageName hx)
    unfold checkImages
    rw [checkImage_of_platforms registry A imageName (h imageName (List.mem_cons_self _ _))]
    by_cases hc : confirmedIncompatible registry A imageName = true
    · simp [hc]
    · simp [hc, ih hrest]

theorem checkImages_checked_sublist (registry : Registry) (A : String)
    (imageNames : List String) :
    (checkImages registry A imageNames).checked.Sublist imageNames := by
  induction imageNames with
  | nil => simp [checkImages]
  | cons imageName rest ih =>
    unfold checkImages
    cases checkImage registry A imageName with
    | next => simpa using ih
    | ret status => simp
    | nilDereference => simp

theorem any_eq_of_perm {l₁ l₂ : List String} (f : String → Bool) (h : l₁.Perm l₂) :
    l₁.any f = l₂.any f := by
  rw [Bool.eq_iff_iff]
  simp only [List.any_eq_true]
  exact ⟨fun ⟨x, hx, hf⟩ => ⟨x, h.mem_iff.mp hx, hf⟩, fun ⟨x, hx, hf⟩ => ⟨x, h.mem_iff.mpr hx, hf⟩⟩

theorem platformsPresent_of_perm {registry : Registry} {l₁ l₂ : List String}
    (h : l₁.Perm l₂) (hp : platformsPresent registry l₂) : platformsPresent registry l₁ :=
  fun x hx => hp x (h.mem_iff.mp hx)

/-- Off the nil dereferences the status of the filter is decided by the
image set alone: a rejection when some image is confirmed incompatible, the
plain admission otherwise, whatever the iteration order. -/
theorem Filter_status_of_platforms (registry : Registry) (range : RangeOrder) (pod : Pod)
    (node : Node) (hA : mapIndex node.ObjectMeta.Labels "kubernetes.io/arch" ≠ "")
    (hp : platformsPresent registry (imageNamesSet pod)) :
    (Filter registry range pod (NodeInfo.SetNode node)).status =
      some (if (imageNamesSet pod).any
          (confirmedIncompatible registry (mapIndex node.ObjectMeta.Labels "kubernetes.io/arch")) then
        NewStatus .Unschedulable [unsupportedReason]
      else NewStatus .Success []) := by
  unfold Filter
  simp only [NodeInfo.SetNode, NodeInfo.Node, hA, if_false]
  rw [checkImages_status_of_platforms _ _ _
    (platformsPresent_of_perm (range.legal _) hp), any_eq_of_perm _ (range.legal _)]

/-- The order of the iteration does not matter for a set of one image name. -/
theorem visit_singleton (range : RangeOrder) (imageName : String) :
    range.visit [imageName] = [imageName] :=
  List.perm_singleton.mp (range.legal [imageName])

/-- One pass through the loop body goes on to the next image, returns the
rejection, or dereferences nil. -/
theorem checkImage_cases (registry : Registry) (A imageName : String) :
    checkImage registry A imageName = .next ∨
      checkImage registry A imageName = .ret (NewStatus .Unschedulable [unsupportedReason]) ∨
      checkImage registry A imageName = .nilDereference := by
  unfold checkImage
  cases registry imageName with
  | index manifests =>
    cases hs : scanManifests A manifests true with
    | none => simp [hs]
    | some notFound => cases notFound <;> simp [hs]
  | config architecture =>
    by_cases ha : architecture = A <;> simp [ha]
  | _ => simp

/-- The loop returns the plain admission or the rejection whenever it
returns: the only other outcome is a nil dereference. -/
theorem checkImages_status_cases (registry : Registry) (A : String) (imageNames : List String) :
    (checkImages registry A imageNames).status = none ∨
      (checkImages registry A imageNames).status = some (NewStatus .Success []) ∨
      (checkImages registry A imageNames).status =
        some (NewStatus .Unschedulable [unsupportedReason]) := by
  induction imageNames with
  | nil => simp [checkImages]
  | cons imageName rest ih =>
    unfold checkImages
    rcases checkImage_cases registry A imageName with h | h | h <;> rw [h]
    · simpa using ih
    · simp
    · simp

/-! ## The filter off the nil dereferences -/

/-- Aggregation rule, for registries whose index entries all have a
platform record: the filter rejects exactly when some image of the pod is
confirmed incompatible, and admits without a reason in every other case. -/
theorem Filter_rejects_iff_of_platforms (registry : Registry) (range : RangeOrder) (pod : Pod)
    (node : Node) (hA : mapIndex node.ObjectMeta.Labels "kubernetes.io/arch" ≠ "")
    (hp : platformsPresent registry (imageNamesSet pod)) :
    ((Filter registry range pod (NodeInfo.SetNode node)).status =
        some (NewStatus .Unschedulable [unsupportedReason]) ↔
      ∃ imageName ∈ imageNamesSet pod,
        confirmedIncompatible registry
          (mapIndex node.ObjectMeta.Labels "kubernetes.io/arch") imageName = true) ∧
    ((¬ ∃ imageName ∈ imageNamesSet pod,
        confirmedIncompatible registry
          (mapIndex node.ObjectMeta.Labels "kubernetes.io/arch") imageName = true) →
      (Filter registry range pod (NodeInfo.SetNode node)).status =
        some (NewStatus .Success [])) := by
  rw [Filter_status_of_platforms registry range pod node hA hp]
  by_cases h : (imageNamesSet pod).any
      (confirmedIncompatible registry (mapIndex node.ObjectMeta.Labels "kubernetes.io/arch")) = true
  · have h2 := List.any_eq_true.mp h
    simp only [h, if_true, true_iff]
    exact ⟨h2, fun hn => absurd h2 hn⟩
  · have h2 : ¬ ∃ imageName ∈ imageNamesSet pod,
        confirmedIncompatible registry
          (mapIndex node.ObjectMeta.Labels "kubernetes.io/arch") imageName = true :=
      fun hex => h (List.any_eq_true.mpr hex)
    rw [Bool.not_eq_true] at h
    rw [h]
    refine ⟨⟨fun heq => ?_, fun hex => absurd hex h2⟩, fun _ => by simp⟩
    exact absurd heq (by decide)

/-- The image sets of two pods whose container lists are permutations of
each other have the same members. -/
theorem imageNamesSet_perm_of_perm (pod₁ pod₂ : Pod)
    (hc : pod₁.Spec.Containers.Perm pod₂.Spec.Containers)
    (hi : pod₁.Spec.InitContainers.Perm pod₂.Spec.InitContainers) :
    (imageNamesSet pod₁).Perm (imageNamesSet pod₂) := by
  rw [List.perm_ext_iff_of_nodup (imageNamesSet_nodup pod₁) (imageNamesSet_nodup pod₂)]
  intro x
  simp only [mem_imageNamesSet, List.mem_append, hc.mem_iff, hi.mem_iff]

/-- Order independence, for registries whose index entries all have a
platform record: the status is the same under every iteration order and
for every permutation of the two container lists. -/
theorem Filter_status_order_independent_of_platforms (registry : Registry)
    (range₁ range₂ : RangeOrder) (pod₁ pod₂ : Pod) (node : Node)
    (hc : pod₁.Spec.Containers.Perm pod₂.Spec.Containers)
    (hi : pod₁.Spec.InitContainers.Perm pod₂.Spec.InitContainers)
    (hp : platformsPresent registry (imageNamesSet pod₁)) :
    (Filter registry range₁ pod₁ (NodeInfo.SetNode node)).status =
      (Filter registry range₂ pod₂ (NodeInfo.SetNode node)).status := by
  have hperm := imageNamesSet_perm_of_perm pod₁ pod₂ hc hi
  by_cases hA : mapIndex node.ObjectMeta.Labels "kubernetes.io/arch" = ""
  · simp [Filter, NodeInfo.SetNode, NodeInfo.Node, hA]
  · rw [Filter_status_of_platforms registry range₁ pod₁ node hA hp,
      Filter_status_of_platforms registry range₂ pod₂ node hA
        (platformsPresent_of_perm hperm.symm hp),
      any_eq_of_perm _ hperm]

/-- Whenever the filter returns, its status is one of the two admissions
or the rejection: the only other outcome is a nil dereference. -/
theorem Filter_status_cases (registry : Registry) (range : RangeOrder) (pod : Pod)
    (nodeInfo : NodeInfo) :
    (Filter registry range pod nodeInfo).status = none ∨
      (Filter registry range pod nodeInfo).status =
        some (NewStatus .Success [archNotFoundReason]) ∨
      (Filter registry range pod nodeInfo).status = some (NewStatus .Success []) ∨
      (Filter registry range pod nodeInfo).status =
        some (NewStatus .Unschedulable [unsupportedReason]) := by
  unfold Filter
  cases nodeInfo.Node with
  | none => simp
  | some node =>
    by_cases hA : mapIndex node.ObjectMeta.Labels "kubernetes.io/arch" = ""
    · simp [hA]
    · simp only [hA, if_false]
      rcases checkImages_status_cases registry
        (mapIndex node.ObjectMeta.Labels "kubernetes.io/arch")
        (range.visit (imageNamesSet pod)) with h | h | h
      · exact Or.inl h
      · exact Or.inr (Or.inr (Or.inl h))
      · exact Or.inr (Or.inr (Or.inr h))

/-- The registry of the scenario has a platform record on every index entry. -/
theorem scenarioRegistry_platformsPresent (imageNames : List String) :
    platformsPresent scenarioRegistry imageNames := by
  intro imageName _ manifests hm m hmem
  unfold scenarioRegistry at hm
  split at hm
  · injection hm with hm
    subst hm
    simp only [List.mem_cons, List.mem_singleton, List.not_mem_nil, or_false] at hmem
    rcases hmem with rfl | rfl <;> simp [entryFor]
  · split at hm <;> cases hm

theorem Filter_rejects_iff_of_platforms_witness :
    mapIndex getNode.ObjectMeta.Labels "kubernetes.io/arch" ≠ "" ∧
      platformsPresent scenarioRegistry (imageNamesSet initAndMainPod) ∧
      ((Filter scenarioRegistry RangeOrder.reversed initAndMainPod
          (NodeInfo.SetNode getNode)).status =
          some (NewStatus .Unschedulable [unsupportedReason]) ↔
        ∃ imageName ∈ imageNamesSet initAndMainPod,
          confirmedIncompatible scenarioRegistry
            (mapIndex getNode.ObjectMeta.Labels "kubernetes.io/arch") imageName = true) :=
  ⟨by decide, scenarioRegistry_platformsPresent _,
    (Filter_rejects_iff_of_platforms scenarioRegistry RangeOrder.reversed initAndMainPod getNode
      (by decide) (scenarioRegistry_platformsPresent _)).1⟩

theorem Filter_status_order_independent_of_platforms_witness :
    (Filter scenarioRegistry RangeOrder.insertion initAndMainPod (NodeInfo.SetNode getNode)).status =
      (Filter scenarioRegistry RangeOrder.reversed initAndMainPod
        (NodeInfo.SetNode getNode)).status :=
  Filter_status_order_independent_of_platforms scenarioRegistry RangeOrder.insertion
    RangeOrder.reversed initAndMainPod initAndMainPod getNode (List.Perm.refl _)
    (List.Perm.refl _) (scenarioRegistry_platformsPresent _)

/-- The scenario of the specification: the init image is single-platform
`amd64`, the main image is an index for `amd64` and `arm64`, the node is
`arm64`, and the filter rejects under every iteration order. -/
theorem scenario_rejects (range : RangeOrder) :
    (Filter scenarioRegistry range initAndMainPod arm64NodeInfo).status =
      some (NewStatus .Unschedulable [unsupportedReason]) := by
  have h := Filter_status_of_platforms scenarioRegistry range initAndMainPod getNode
    (by decide) (scenarioRegistry_platformsPresent _)
  rw [arm64NodeInfo, h]
  decide

/-- The test `TestMultiArchPod`: both containers use the multi-arch image,
which has an `arm64` entry, and the filter admits. -/
theorem TestMultiArchPod_admits (range : RangeOrder) :
    (Filter testRegistry range getMultiarchPod arm64NodeInfo).status =
      some (NewStatus .Success []) := by
  have hs : imageNamesSet getMultiarchPod = ["//quay.io/openshifttest/hello-openshift:1.2.0"] := by
    decide
  simp only [Filter, arm64NodeInfo, NodeInfo.SetNode, NodeInfo.Node, hs, visit_singleton]
  decide

/-- The test `TestAMD64OnlyPodOnARM64Node` under the two iteration orders
of its two images: the filter rejects. -/
theorem TestAMD64OnlyPodOnARM64Node_rejects :
    (Filter testRegistry RangeOrder.insertion getOnlyAMD64Pod arm64NodeInfo).status =
        some (NewStatus .Unschedulable [unsupportedReason]) ∧
      (Filter testRegistry RangeOrder.reversed getOnlyAMD64Pod arm64NodeInfo).status =
        some (NewStatus .Unschedulable [unsupportedReason]) := by
  decide

/-- When every pass goes on to the next image, the loop checks every image
name and ends with the plain admission. -/
theorem checkImages_of_all_next (registry : Registry) (A : String) (imageNames : List String)
    (h : ∀ imageName ∈ imageNames, checkImage registry A imageName = .next) :
    checkImages registry A imageNames =
      { checked := imageNames, status := some (NewStatus .Success []) } := by
  induction imageNames with
  | nil => simp [checkImages]
  | cons imageName rest ih =>
    unfold checkImages
    rw [h imageName (List.mem_cons_self _ _), ih (fun x hx => h x (List.mem_cons_of_mem _ hx))]

/-! ## The claims -/

/-- C1, a defect of the code: the aggregation rule fails where an index has
an entry without a platform record. With the image `registry/app:main` and
an `arm64` node, an index of an `amd64` entry and a platform-less entry is
confirmed incompatible and the filter does not reject, it dereferences nil;
an index of an `arm64` entry and a platform-less entry is not incompatible
and the filter does not admit, it dereferences nil. -/
theorem Filter_aggregation_nil_platform (range : RangeOrder) :
    confirmedIncompatible (indexRegistry [entryFor "amd64", entryWithoutPlatform])
        "arm64" "//registry/app:main" = true ∧
      (Filter (indexRegistry [entryFor "amd64", entryWithoutPlatform]) range
        mainOnlyPod arm64NodeInfo).status = none ∧
      confirmedIncompatible (indexRegistry [entryFor "arm64", entryWithoutPlatform])
        "arm64" "//registry/app:main" = false ∧
      (Filter (indexRegistry [entryFor "arm64", entryWithoutPlatform]) range
        mainOnlyPod arm64NodeInfo).status = none := by
  have hs : imageNamesSet mainOnlyPod = ["//registry/app:main"] := by decide
  simp only [Filter, arm64NodeInfo, NodeInfo.SetNode, NodeInfo.Node, hs, visit_singleton]
  decide

/-- C2: when the label `kubernetes.io/arch` is absent from the labels of
the node, or present with the empty value, the filter checks no image and
returns `Success` with the reason of line 54, whose message is not empty,
for every pod, registry and iteration order. -/
theorem Filter_admits_without_node_architecture (registry : Registry) (range : RangeOrder)
    (pod : Pod) (node : Node)
    (h : node.ObjectMeta.Labels.lookup "kubernetes.io/arch" = none ∨
      node.ObjectMeta.Labels.lookup "kubernetes.io/arch" = some "") :
    Filter registry range pod (NodeInfo.SetNode node) =
        { checked := [], status := some (NewStatus .Success [archNotFoundReason]) } ∧
      (NewStatus .Success [archNotFoundReason]).code = .Success ∧
      (NewStatus .Success [archNotFoundReason]).reasons ≠ [] ∧
      (NewStatus .Success [archNotFoundReason]).Message ≠ "" := by
  have hA : mapIndex node.ObjectMeta.Labels "kubernetes.io/arch" = "" := by
    unfold mapIndex
    rcases h with h | h <;> rw [h] <;> rfl
  refine ⟨?_, rfl, by decide, by decide⟩
  simp [Filter, NodeInfo.SetNode, NodeInfo.Node, hA]

theorem Filter_admits_without_node_architecture_witness :
    (unlabelledNode.ObjectMeta.Labels.lookup "kubernetes.io/arch" = none ∨
        unlabelledNode.ObjectMeta.Labels.lookup "kubernetes.io/arch" = some "") ∧
      Filter scenarioRegistry RangeOrder.insertion initAndMainPod (NodeInfo.SetNode unlabelledNode) =
        { checked := [], status := some (NewStatus .Success [archNotFoundReason]) } :=
  ⟨Or.inl (by decide),
    (Filter_admits_without_node_architecture scenarioRegistry RangeOrder.insertion
      initAndMainPod unlabelledNode (Or.inl (by decide))).1⟩

/-- C3, a defect of the code: a single-platform mismatch does not reject
whatever the other images are. The init image is single-platform `amd64`,
the node is `arm64`, the index of the main image has an entry without a
platform record, and when the main image is visited first the filter
dereferences nil instead of returning `Unschedulable`. -/
theorem Filter_single_mismatch_nil_platform :
    platformlessMainRegistry "//registry/app:init" = .config "amd64" ∧
      "//registry/app:init" ∈ imageNamesSet initAndMainPod ∧
      Filter platformlessMainRegistry RangeOrder.insertion initAndMainPod arm64NodeInfo =
        { checked := ["//registry/app:main"], status := none } := by
  decide

/-- C4, a defect of the code: an index none of whose entries is for the
architecture of the node does not always reject. With an index whose only
entry has no platform record and an `arm64` node the filter dereferences
nil, under every iteration order. -/
theorem Filter_index_without_match_nil_platform (range : RangeOrder) :
    confirmedIncompatible (indexRegistry [entryWithoutPlatform]) "arm64"
        "//registry/app:main" = true ∧
      Filter (indexRegistry [entryWithoutPlatform]) range mainOnlyPod arm64NodeInfo =
        { checked := ["//registry/app:main"], status := none } := by
  have hs : imageNamesSet mainOnlyPod = ["//registry/app:main"] := by decide
  simp only [Filter, arm64NodeInfo, NodeInfo.SetNode, NodeInfo.Node, hs, visit_singleton]
  decide

/-- C5, a defect of the code: a pod whose images are all compatible is not
always admitted. The one image of the pod of `getMultiarchPod` has an index
with an `arm64` entry followed by an entry without a platform record, the
node is `arm64`, and the filter dereferences nil, under every iteration
order. -/
theorem Filter_all_compatible_nil_platform (range : RangeOrder) :
    (∀ imageName ∈ imageNamesSet getMultiarchPod,
        platformlessTestRegistry imageName =
          .index [entryFor "amd64", entryFor "arm64", entryWithoutPlatform]) ∧
      Filter platformlessTestRegistry range getMultiarchPod arm64NodeInfo =
        { checked := ["//quay.io/openshifttest/hello-openshift:1.2.0"], status := none } := by
  have hs : imageNamesSet getMultiarchPod = ["//quay.io/openshifttest/hello-openshift:1.2.0"] := by
    decide
  simp only [Filter, arm64NodeInfo, NodeInfo.SetNode, NodeInfo.Node, hs, visit_singleton]
  decide

/-- C6, the claim fails: with an unreachable registry, one image and an
`arm64` node, no status of code `Success` with a non-empty message is
returned. -/
theorem Filter_unreachable_registry_no_diagnostic :
    ¬ ∃ status : Status,
      (Filter unreachableRegistry RangeOrder.insertion mainOnlyPod arm64NodeInfo).status =
          some status ∧
        status.code = .Success ∧ status.Message ≠ "" := by
  rintro ⟨status, hs, -, hm⟩
  have h : (Filter unreachableRegistry RangeOrder.insertion mainOnlyPod arm64NodeInfo).status =
      some (NewStatus .Success []) := by decide
  rw [h] at hs
  injection hs with hs
  subst hs
  exact hm (by decide)

/-- C6, amended: for a pod with at least one image and a node with an
architecture, when the reference parse, the image-source creation or the
manifest fetch fails for every image of the pod, the filter checks every
image and returns `Success` without any reason: the message of the status
is empty. -/
theorem Filter_unreachable_registry_admits (registry : Registry) (range : RangeOrder)
    (pod : Pod) (node : Node)
    (hA : mapIndex node.ObjectMeta.Labels "kubernetes.io/arch" ≠ "")
    (_himages : imageNamesSet pod ≠ [])
    (hfail : ∀ imageName ∈ imageNamesSet pod,
      registry imageName = .parseReferenceError ∨ registry imageName = .newImageSourceError ∨
        registry imageName = .getManifestError) :
    Filter registry range pod (NodeInfo.SetNode node) =
        { checked := range.visit (imageNamesSet pod), status := some (NewStatus .Success []) } ∧
      (NewStatus .Success []).reasons = [] ∧
      (NewStatus .Success []).Message = "" := by
  refine ⟨?_, rfl, by decide⟩
  simp only [Filter, NodeInfo.SetNode, NodeInfo.Node, hA, if_false]
  apply checkImages_of_all_next
  intro imageName hmem
  unfold checkImage
  rcases hfail imageName ((range.legal _).mem_iff.mp hmem) with h | h | h <;> rw [h]

theorem Filter_unreachable_registry_admits_witness :
    mapIndex getNode.ObjectMeta.Labels "kubernetes.io/arch" ≠ "" ∧
      imageNamesSet initAndMainPod ≠ [] ∧
      Filter unreachableRegistry RangeOrder.reversed initAndMainPod (NodeInfo.SetNode getNode) =
        { checked := ["//registry/app:init", "//registry/app:main"],
          status := some (NewStatus .Success []) } :=
  ⟨by decide, by decide,
    (Filter_unreachable_registry_admits unreachableRegistry RangeOrder.reversed initAndMainPod
      getNode (by decide) (by decide) (fun _ _ => Or.inr (Or.inr rfl))).1⟩

/-- C7, a defect of the code: the filter does not always decide. On a
`NodeInfo` with no node set it dereferences nil for every pod, registry and
iteration order, and on an `arm64` node it dereferences nil when the index
of the image starts with an entry without a platform record. -/
theorem Filter_nil_dereferences (registry : Registry) (range : RangeOrder) (pod : Pod) :
    Filter registry range pod emptyNodeInfo = { checked := [], status := none } ∧
      (Filter (indexRegistry [entryWithoutPlatform, entryFor "arm64"]) range
        mainOnlyPod arm64NodeInfo).status = none := by
  refine ⟨rfl, ?_⟩
  have hs : imageNamesSet mainOnlyPod = ["//registry/app:main"] := by decide
  simp only [Filter, arm64NodeInfo, NodeInfo.SetNode, NodeInfo.Node, hs, visit_singleton]
  decide

/-- C8, a defect of the code: the status depends on the iteration order.
The pod of `getOnlyAMD64Pod` on the `arm64` node, with an entry without a
platform record in the index of its main image: visiting the main image
first dereferences nil, visiting the init image first returns
`Unschedulable`. -/
theorem Filter_status_depends_on_order :
    (Filter platformlessTestRegistry RangeOrder.insertion getOnlyAMD64Pod arm64NodeInfo).status =
        none ∧
      (Filter platformlessTestRegistry RangeOrder.reversed getOnlyAMD64Pod arm64NodeInfo).status =
        some (NewStatus .Unschedulable [unsupportedReason]) := by
  decide

/-- C9: the image set holds `"//" ++ image` exactly once for every image of
a main or init container and nothing else, and in one run of the filter no
image name is checked twice, every checked name is in the set, and the
number of checked names is at most the number of distinct image strings of
the pod. -/
theorem Filter_duplicates_evaluated_once (registry : Registry) (range : RangeOrder)
    (pod : Pod) (nodeInfo : NodeInfo) :
    (∀ x, x ∈ imageNamesSet pod ↔
        ∃ c ∈ pod.Spec.Containers ++ pod.Spec.InitContainers, x = "//" ++ c.Image) ∧
      (∀ c ∈ pod.Spec.Containers ++ pod.Spec.InitContainers,
        (imageNamesSet pod).count ("//" ++ c.Image) = 1) ∧
      (imageNamesSet pod).length =
        ((pod.Spec.Containers ++ pod.Spec.InitContainers).map Container.Image).dedup.length ∧
      (∀ x, (Filter registry range pod nodeInfo).checked.count x ≤ 1) ∧
      (∀ x ∈ (Filter registry range pod nodeInfo).checked, x ∈ imageNamesSet pod) ∧
      (Filter registry range pod nodeInfo).checked.length ≤
        ((pod.Spec.Containers ++ pod.Spec.InitContainers).map Container.Image).dedup.length := by
  have hlen : (imageNamesSet pod).length =
      ((pod.Spec.Containers ++ pod.Spec.InitContainers).map Container.Image).dedup.length := by
    rw [(imageNamesSet_perm_dedup pod).length_eq, List.length_map]
  have hsub : (Filter registry range pod nodeInfo).checked.Sublist
      (range.visit (imageNamesSet pod)) := by
    unfold Filter
    cases nodeInfo.Node with
    | none => simp
    | some node =>
      by_cases hA : mapIndex node.ObjectMeta.Labels "kubernetes.io/arch" = ""
      · simp [hA]
      · simpa [hA] using checkImages_checked_sublist registry _ _
  have hnodup : (range.visit (imageNamesSet pod)).Nodup :=
    (range.legal _).nodup_iff.mpr (imageNamesSet_nodup pod)
  refine ⟨mem_imageNamesSet pod, ?_, hlen, ?_, ?_, ?_⟩
  · intro c hc
    exact List.count_eq_one_of_mem (imageNamesSet_nodup pod)
      ((mem_imageNamesSet pod _).mpr ⟨c, hc, rfl⟩)
  · intro x
    exact List.nodup_iff_count_le_one.mp (hnodup.sublist hsub) x
  · intro x hx
    exact (range.legal _).mem_iff.mp (hsub.subset hx)
  · rw [← hlen]
    exact le_of_le_of_eq hsub.length_le (range.legal _).length_eq

/-! ## The context -/

/-- The run with the context is the run of `Filter` against the answers of
the client under that context: the context changes nothing else. -/
theorem checkImagesWithContext_run (ctx : Context) (client : Client) (A : String)
    (imageNames : List String) :
    (checkImagesWithContext ctx client A imageNames).checked =
        (checkImages (client ctx) A imageNames).checked ∧
      (checkImagesWithContext ctx client A imageNames).status =
        (checkImages (client ctx) A imageNames).status := by
  induction imageNames with
  | nil => simp [checkImagesWithContext, checkImages]
  | cons imageName rest ih =>
    unfold checkImagesWithContext checkImages
    cases checkImage (client ctx) A imageName with
    | next => simpa using ih
    | ret status => simp
    | nilDereference => simp

theorem FilterWithContext_run (ctx : Context) (client : Client) (range : RangeOrder) (pod : Pod)
    (nodeInfo : NodeInfo) :
    (FilterWithContext ctx client range pod nodeInfo).checked =
        (Filter (client ctx) range pod nodeInfo).checked ∧
      (FilterWithContext ctx client range pod nodeInfo).status =
        (Filter (client ctx) range pod nodeInfo).status := by
  unfold FilterWithContext Filter
  cases nodeInfo.Node with
  | none => simp
  | some node =>
    by_cases hA : mapIndex node.ObjectMeta.Labels "kubernetes.io/arch" = ""
    · simp [hA]
    · simpa [hA] using checkImagesWithContext_run ctx client _ _

theorem checkImagesWithContext_of_all_next (ctx : Context) (client : Client) (A : String)
    (imageNames : List String)
    (h : ∀ imageName ∈ imageNames, checkImage (client ctx) A imageName = .next) :
    checkImagesWithContext ctx client A imageNames =
      { calls := callsForAll ctx client imageNames, checked := imageNames,
        status := some (NewStatus .Success []) } := by
  induction imageNames with
  | nil => simp [checkImagesWithContext, callsForAll]
  | cons imageName rest ih =>
    unfold checkImagesWithContext
    rw [h imageName (List.mem_cons_self _ _)]
    simp [ih (fun x hx => h x (List.mem_cons_of_mem _ hx)), callsForAll]

theorem parseReference_mem_callsFor (ctx : Context) (imageName : String)
    (resolution : Resolution) :
    Call.ParseReference imageName ∈ callsFor ctx imageName resolution := by
  cases resolution <;> simp [callsFor]

theorem newImageSource_mem_callsFor (ctx : Context) (imageName : String)
    (resolution : Resolution) (h : resolution ≠ .parseReferenceError) :
    Call.NewImageSource ctx imageName ∈ callsFor ctx imageName resolution := by
  cases resolution <;> simp_all [callsFor]

theorem parseReference_mem_callsForAll (ctx : Context) (client : Client)
    (imageNames : List String) (imageName : String) (h : imageName ∈ imageNames) :
    Call.ParseReference imageName ∈ callsForAll ctx client imageNames := by
  induction imageNames with
  | nil => cases h
  | cons x rest ih =>
    unfold callsForAll
    rcases List.mem_cons.mp h with rfl | h
    · exact List.mem_append_left _ (parseReference_mem_callsFor ctx _ _)
    · exact List.mem_append_right _ (ih h)

theorem newImageSource_mem_callsForAll (ctx : Context) (client : Client)
    (imageNames : List String) (imageName : String) (h : imageName ∈ imageNames)
    (hp : client ctx imageName ≠ .parseReferenceError) :
    Call.NewImageSource ctx imageName ∈ callsForAll ctx client imageNames := by
  induction imageNames with
  | nil => cases h
  | cons x rest ih =>
    unfold callsForAll
    rcases List.mem_cons.mp h with rfl | h
    · exact List.mem_append_left _ (newImageSource_mem_callsFor ctx _ _ hp)
    · exact List.mem_append_right _ (ih h)

/-- When no answer gets past the fetch of the manifest, no call of the
single-platform branch (lines 121 and 127) is made. -/
theorem callsForAll_before_config (ctx : Context) (client : Client) (imageNames : List String)
    (h : ∀ imageName ∈ imageNames,
      client ctx imageName = .parseReferenceError ∨
        client ctx imageName = .newImageSourceError ∨
        client ctx imageName = .getManifestError) :
    ∀ call ∈ callsForAll ctx client imageNames, ∀ (c : Context) (imageName : String),
      call ≠ .FromUnparsedImage c imageName ∧ call ≠ .OCIConfig c imageName := by
  induction imageNames with
  | nil => intro call hcall; simp [callsForAll] at hcall
  | cons x rest ih =>
    intro call hcall c imageName
    unfold callsForAll at hcall
    rcases List.mem_append.mp hcall with hc | hc
    · rcases h x (List.mem_cons_self _ _) with hx | hx | hx <;>
        rw [hx] at hc <;> simp only [callsFor, List.mem_cons, List.mem_singleton,
          List.not_mem_nil, or_false] at hc <;>
        rcases hc with rfl | rfl | rfl <;> simp
    · exact ih (fun y hy => h y (List.mem_cons_of_mem _ hy)) call hc c imageName

theorem cancellableClient_honoursCancellation (registry : Registry) :
    honoursCancellation (cancellableClient registry) := by
  intro ctx imageName hctx
  unfold cancellableClient
  rw [hctx]
  cases registry imageName <;> simp

/-- C10, the claim fails: with an already cancelled context, the pod of
the scenario on the `arm64` node and a client that fails `NewImageSource`
under a cancelled context, the filter still hands the cancelled context to
`NewImageSource` for the first image and, after that failure, for the
second image as well: fetches are started, none is abandoned. -/
theorem Filter_cancelled_context_starts_fetches :
    cancelledContext.cancelled = true ∧
      (FilterWithContext cancelledContext (cancellableClient scenarioRegistry)
          RangeOrder.insertion initAndMainPod arm64NodeInfo).calls =
        [.ParseReference "//registry/app:main",
          .NewImageSource cancelledContext "//registry/app:main",
          .ParseReference "//registry/app:init",
          .NewImageSource cancelledContext "//registry/app:init"] ∧
      ¬ ∀ call ∈ (FilterWithContext cancelledContext (cancellableClient scenarioRegistry)
          RangeOrder.insertion initAndMainPod arm64NodeInfo).calls,
        call.startsFetch = false := by
  decide

/-- C10, amended: the filter makes no cancellation check of its own. For
every pod and every node with an architecture, when the context is already
cancelled and the client fails every call made with a cancelled context,
the filter abandons nothing: it visits every image of the pod, calls
`ParseReference` for each, hands the cancelled context to `NewImageSource`
for every image whose reference parses, makes no call of lines 121 and 127,
and returns `Success` without a reason. -/
theorem Filter_cancelled_context_visits_every_image (ctx : Context) (client : Client)
    (range : RangeOrder) (pod : Pod) (node : Node)
    (hA : mapIndex node.ObjectMeta.Labels "kubernetes.io/arch" ≠ "")
    (hctx : ctx.cancelled = true) (hclient : honoursCancellation client) :
    FilterWithContext ctx client range pod (NodeInfo.SetNode node) =
        { calls := callsForAll ctx client (range.visit (imageNamesSet pod)),
          checked := range.visit (imageNamesSet pod),
          status := some (NewStatus .Success []) } ∧
      (∀ imageName ∈ imageNamesSet pod,
        Call.ParseReference imageName ∈
          (FilterWithContext ctx client range pod (NodeInfo.SetNode node)).calls) ∧
      (∀ imageName ∈ imageNamesSet pod, client ctx imageName ≠ .parseReferenceError →
        Call.NewImageSource ctx imageName ∈
          (FilterWithContext ctx client range pod (NodeInfo.SetNode node)).calls) ∧
      (∀ call ∈ (FilterWithContext ctx client range pod (NodeInfo.SetNode node)).calls,
        ∀ (c : Context) (imageName : String),
          call ≠ .FromUnparsedImage c imageName ∧ call ≠ .OCIConfig c imageName) := by
  have hfail : ∀ imageName ∈ range.visit (imageNamesSet pod),
      client ctx imageName = .parseReferenceError ∨
        client ctx imageName = .newImageSourceError ∨
        client ctx imageName = .getManifestError :=
    fun imageName _ => hclient ctx imageName hctx
  have hrun : FilterWithContext ctx client range pod (NodeInfo.SetNode node) =
      { calls := callsForAll ctx client (range.visit (imageNamesSet pod)),
        checked := range.visit (imageNamesSet pod),
        status := some (NewStatus .Success []) } := by
    simp only [FilterWithContext, NodeInfo.SetNode, NodeInfo.Node, hA, if_false]
    apply checkImagesWithContext_of_all_next
    intro imageName hmem
    unfold checkImage
    rcases hfail imageName hmem with h | h | h <;> rw [h]
  rw [hrun]
  refine ⟨rfl, ?_, ?_, ?_⟩
  · intro imageName hmem
    exact parseReference_mem_callsForAll ctx client _ imageName
      ((range.legal _).mem_iff.mpr hmem)
  · intro imageName hmem hp
    exact newImageSource_mem_callsForAll ctx client _ imageName
      ((range.legal _).mem_iff.mpr hmem) hp
  · exact callsForAll_before_config ctx client _ hfail

theorem Filter_cancelled_context_visits_every_image_witness :
    mapIndex getNode.ObjectMeta.Labels "kubernetes.io/arch" ≠ "" ∧
      cancelledContext.cancelled = true ∧
      honoursCancellation (cancellableClient testRegistry) ∧
      FilterWithContext cancelledContext (cancellableClient testRegistry) RangeOrder.reversed
          getOnlyAMD64Pod (NodeInfo.SetNode getNode) =
        { calls := callsForAll cancelledContext (cancellableClient testRegistry)
            (RangeOrder.reversed.visit (imageNamesSet getOnlyAMD64Pod)),
          checked := RangeOrder.reversed.visit (imageNamesSet getOnlyAMD64Pod),
          status := some (NewStatus .Success []) } :=
  ⟨by decide, rfl, cancellableClient_honoursCancellation testRegistry,
    (Filter_cancelled_context_visits_every_image cancelledContext
      (cancellableClient testRegistry) RangeOrder.reversed getOnlyAMD64Pod getNode
      (by decide) rfl (cancellableClient_honoursCancellation testRegistry)).1⟩

end MultiArchAware
